import Mathlib

/-!
Verification development for the country-currency-api server (`server.js`).
The server fetches a country registry and an exchange-rate table, reconciles
them into one record per country, stores the result in a MySQL table, and
serves query endpoints.  All definitions below are shallow embeddings of the
corresponding JavaScript/SQL code; rationals stand in for JS numbers, and
`Nat` timestamps stand in for SQL TIMESTAMP values.
-/

namespace CountryApi

/-- A currency descriptor from the country source payload; the source contract
guarantees at least a `code` field on each descriptor. -/
structure RawCurrency where
  code : String
deriving DecidableEq, Repr

/-- One raw entry of the country source payload
(restcountries.com `v2/all?fields=name,capital,region,population,flag,currencies`).
Optional fields are `none` when the source omits them; an omitted `currencies`
field is modelled as the empty list, which the guard
`country.currencies && country.currencies.length > 0` treats identically. -/
structure RawCountry where
  name : String
  capital : Option String := none
  region : Option String := none
  population : Option Int := none
  flag : Option String := none
  currencies : List RawCurrency := []
deriving DecidableEq, Repr

/-- The exchange-rate payload `exchangeResponse.data.rates`: a JS object
mapping currency code to rate, modelled as an association list with
first-key-wins lookup. -/
def RateMapping : Type := List (String × ℚ)

/-- Property lookup `exchangeRates[currencyCode]` (ignoring truthiness, which
the caller applies separately). -/
def lookupRate (rates : RateMapping) (code : String) : Option ℚ :=
  (List.find? (fun p => p.1 == code) rates).map (fun p => p.2)

/-- JS `x || null` applied to an optional string field: a missing field and
the empty string are both falsy and coerce to `null`. -/
def jsStringOrNull (v : Option String) : Option String :=
  match v with
  | none => none
  | some s => if s = "" then none else some s

/-- JS `country.population || 0`: a missing population is falsy and becomes 0;
the number 0 maps to 0 as well, and every other number (negatives included)
passes through unchanged. -/
def jsPopulationOrZero (v : Option Int) : Int :=
  match v with
  | none => 0
  | some p => p

/-- The reconciled record computed by one iteration of the refresh loop
(server.js lines 211-233), before it is written to the `countries` table. -/
structure CountryRecord where
  name : String
  capital : Option String
  region : Option String
  population : Int
  currencyCode : Option String
  exchangeRate : Option ℚ
  estimatedGdp : Option ℚ
  flagUrl : Option String
deriving DecidableEq, Repr

/-- One iteration of the refresh loop (server.js lines 211-233): merge one raw
country entry with the rate mapping.  `m` is the value this iteration draws by
`Math.random() * (2000 - 1000) + 1000`.  The guard
`if (exchangeRates[currencyCode])` is a JS truthiness test, so a rate that is
present but equal to 0 behaves like an absent rate. -/
def reconcile (rates : RateMapping) (m : ℚ) (c : RawCountry) : CountryRecord :=
  let population := jsPopulationOrZero c.population
  let base : CountryRecord :=
    { name := c.name
      capital := jsStringOrNull c.capital
      region := jsStringOrNull c.region
      population := population
      currencyCode := none
      exchangeRate := none
      estimatedGdp := some 0
      flagUrl := jsStringOrNull c.flag }
  match c.currencies with
  | [] => base
  | cur :: _ =>
    match lookupRate rates cur.code with
    | some r =>
      if r = 0 then
        { base with currencyCode := some cur.code, exchangeRate := none, estimatedGdp := none }
      else
        { base with currencyCode := some cur.code, exchangeRate := some r,
                    estimatedGdp := some ((population : ℚ) * m / r) }
    | none =>
      { base with currencyCode := some cur.code, exchangeRate := none, estimatedGdp := none }

end CountryApi

namespace CountryApi

/-- C1: for every raw country entry and rate mapping, the reconciled record
satisfies the null-propagation invariant: if the raw currency list is empty
then `currencyCode`, `exchangeRate` are null and `estimatedGdp` is 0; if
`currencyCode` is set but absent from the rate mapping then `exchangeRate`
and `estimatedGdp` are null.  This holds for every combination of currency
present/absent and rate present/absent since `rates`, `m` and `c` are
universally quantified. -/
theorem reconcile_null_propagation (rates : RateMapping) (m : ℚ) (c : RawCountry) :
    (c.currencies = [] →
      (reconcile rates m c).currencyCode = none ∧
      (reconcile rates m c).exchangeRate = none ∧
      (reconcile rates m c).estimatedGdp = some 0) ∧
    (∀ code, (reconcile rates m c).currencyCode = some code →
      lookupRate rates code = none →
      (reconcile rates m c).exchangeRate = none ∧
      (reconcile rates m c).estimatedGdp = none) := by
  constructor
  · intro h
    simp [reconcile, h]
  · intro code hcode habs
    rcases hc : c.currencies with _ | ⟨cur, rest⟩
    · simp [reconcile, hc] at hcode
    · rcases hl : lookupRate rates cur.code with _ | r
      · have : code = cur.code := by
          have h := hcode
          simp [reconcile, hc, hl] at h
          exact h.symm
        simp [reconcile, hc, hl]
      · by_cases hr : r = 0
        · have : code = cur.code := by
            have h := hcode
            simp [reconcile, hc, hl, hr] at h
            exact h.symm
          simp [reconcile, hc, hl, hr]
        · have hcc : code = cur.code := by
            have h := hcode
            simp [reconcile, hc, hl, hr] at h
            exact h.symm
          rw [hcc] at habs
          rw [habs] at hl
          exact absurd hl (by simp)

/-- Concrete witness for C1: a country with no currencies gets
`(null, null, 0)`, and a country whose first currency code is missing from
the rate mapping gets null `exchangeRate` and null `estimatedGdp`. -/
theorem reconcile_null_propagation_witness :
    ((reconcile [("NGN", 1600)] 1500 { name := "Palau" }).currencyCode = none ∧
     (reconcile [("NGN", 1600)] 1500 { name := "Palau" }).exchangeRate = none ∧
     (reconcile [("NGN", 1600)] 1500 { name := "Palau" }).estimatedGdp = some 0) ∧
    ((reconcile [("NGN", 1600)] 1500
        { name := "Atlantis", currencies := [⟨"ATL"⟩] }).exchangeRate = none ∧
     (reconcile [("NGN", 1600)] 1500
        { name := "Atlantis", currencies := [⟨"ATL"⟩] }).estimatedGdp = none) :=
  ⟨(reconcile_null_propagation [("NGN", 1600)] 1500 { name := "Palau" }).1 rfl,
   (reconcile_null_propagation [("NGN", 1600)] 1500
      { name := "Atlantis", currencies := [⟨"ATL"⟩] }).2 "ATL" (by decide) (by decide)⟩

/-- Shared concrete data: the Nigeria scenario of the specification. -/
def nigeriaRaw : RawCountry :=
  { name := "Nigeria", population := some 200000000, currencies := [⟨"NGN"⟩] }

/-- Shared concrete data: the rate mapping carrying only NGN at 1600. -/
def ngnRates : RateMapping := [("NGN", 1600)]

/-- C2 (amended): when the first currency code of a raw entry maps to a
positive rate `r` and the multiplier `m` lies in `[1000, 2000)`, the
reconciled `estimatedGdp` equals `population * m / r`; when additionally the
population is positive, that value lies in
`[population * 1000 / r, population * 2000 / r)`.  (As stated in the claim
the interval membership fails for `population = 0`, where the half-open
interval is empty; see the counterexample.) -/
theorem reconcile_estimatedGdp_bounds (rates : RateMapping) (m r : ℚ)
    (c : RawCountry) (cur : RawCurrency) (rest : List RawCurrency)
    (hcur : c.currencies = cur :: rest)
    (hr : lookupRate rates cur.code = some r)
    (hrpos : 0 < r) (hm1 : 1000 ≤ m) (hm2 : m < 2000) :
    (reconcile rates m c).estimatedGdp
      = some ((jsPopulationOrZero c.population : ℚ) * m / r) ∧
    (0 < jsPopulationOrZero c.population →
      (jsPopulationOrZero c.population : ℚ) * 1000 / r
          ≤ (jsPopulationOrZero c.population : ℚ) * m / r ∧
      (jsPopulationOrZero c.population : ℚ) * m / r
          < (jsPopulationOrZero c.population : ℚ) * 2000 / r) := by
  have hr0 : r ≠ 0 := ne_of_gt hrpos
  constructor
  · simp [reconcile, hcur, hr, hr0]
  · intro hpop
    have hp : (0 : ℚ) < (jsPopulationOrZero c.population : ℚ) := by
      exact_mod_cast hpop
    constructor
    · gcongr
    · gcongr

/-- Concrete witness for C2 (amended), which is exactly the specification's
Nigeria scenario: population 200000000, rate 1600, multiplier stubbed to
1500 yields estimatedGdp 187500000, inside the claimed interval. -/
theorem reconcile_estimatedGdp_bounds_witness :
    (reconcile ngnRates 1500 nigeriaRaw).estimatedGdp = some 187500000 ∧
    (200000000 : ℚ) * 1000 / 1600 ≤ 187500000 ∧
    (187500000 : ℚ) < 200000000 * 2000 / 1600 := by
  have h := reconcile_estimatedGdp_bounds ngnRates 1500 1600 nigeriaRaw
    ⟨"NGN"⟩ [] rfl (by decide) (by decide) (by decide) (by decide)
  refine ⟨?_, by norm_num, by norm_num⟩
  rw [h.1]
  norm_num [nigeriaRaw, jsPopulationOrZero]

/-- Counterexample to C2 as stated: a raw entry whose source omits the
population (so the reconciled population is 0) with its currency present in
the rate mapping gets `estimatedGdp = 0`, which does not lie in the claimed
half-open interval `[0 * 1000 / 1600, 0 * 2000 / 1600) = [0, 0)`, because
that interval is empty (even though the multiplier 1500 lies in
`[1000, 2000)`). -/
theorem reconcile_estimatedGdp_interval_counterexample :
    (reconcile ngnRates 1500 { name := "Nullland", currencies := [⟨"NGN"⟩] }).estimatedGdp
      = some 0 ∧
    (1000 : ℚ) ≤ 1500 ∧ (1500 : ℚ) < 2000 ∧
    ¬ ((0 : ℚ) * 1000 / 1600 ≤ 0 ∧ (0 : ℚ) < 0 * 2000 / 1600) := by
  refine ⟨?_, by decide, by decide, ?_⟩
  · norm_num [reconcile, ngnRates, lookupRate, jsPopulationOrZero]
  · intro h
    have h2 := h.2
    norm_num at h2


/-! Decimal column texts.  The mysql2 pool is created without the
`decimalNumbers` option, so the driver delivers DECIMAL column values to JS
as decimal strings (or `null`); the response mappers then apply
`value ? parseFloat(value) : null`.  The machinery below embeds that text
round trip. -/

/-- The ten decimal digit characters. -/
def decDigits : List Char := ['0', '1', '2', '3', '4', '5', '6', '7', '8', '9']

/-- The character of a decimal digit `d < 10`. -/
def digitChar (d : Nat) : Char := Char.ofNat (48 + d)

/-- Decimal digit list of a natural number, most significant digit first (the
form in which MySQL prints the integral and fractional parts of a DECIMAL
value). -/
def natDigits (n : Nat) : List Char :=
  if _ : n < 10 then [digitChar n]
  else natDigits (n / 10) ++ [digitChar (n % 10)]
termination_by n
decreasing_by exact Nat.div_lt_self (by omega) (by omega)

theorem digitChar_mem_decDigits {d : Nat} (hd : d < 10) : digitChar d ∈ decDigits := by
  interval_cases d <;> decide

theorem natDigits_ne_nil (n : Nat) : natDigits n ≠ [] := by
  rw [natDigits]
  split
  · simp
  · simp

theorem natDigits_mem_decDigits (n : Nat) : ∀ c ∈ natDigits n, c ∈ decDigits := by
  induction n using Nat.strong_induction_on with
  | _ n ih =>
    rw [natDigits]
    split
    · next h =>
      intro c hc
      rw [List.mem_singleton] at hc
      exact hc ▸ digitChar_mem_decDigits h
    · next h =>
      intro c hc
      rcases List.mem_append.1 hc with hc | hc
      · exact ih (n / 10) (Nat.div_lt_self (by omega) (by omega)) c hc
      · rw [List.mem_singleton] at hc
        exact hc ▸ digitChar_mem_decDigits (Nat.mod_lt _ (by omega))

theorem natDigits_length_le {n k : Nat} (hk : 1 ≤ k) (hn : n < 10 ^ k) :
    (natDigits n).length ≤ k := by
  induction n using Nat.strong_induction_on generalizing k with
  | _ n ih =>
    rw [natDigits]
    split
    · next h => simpa using hk
    · next h =>
      have hk2 : 2 ≤ k := by
        by_contra hlt
        have : k = 1 := by omega
        subst this
        simp at hn
        omega
      have hdiv : n / 10 < 10 ^ (k - 1) := by
        rw [Nat.div_lt_iff_lt_mul (by omega)]
        calc n < 10 ^ k := hn
        _ = 10 ^ (k - 1) * 10 := by
          rw [← pow_succ]
          congr 1
          omega
      have := ih (n / 10) (Nat.div_lt_self (by omega) (by omega)) (by omega) hdiv
      simp only [List.length_append, List.length_singleton]
      omega

/-- Numeric value of a decimal digit character; `none` for any other
character. -/
def digitVal (c : Char) : Option Nat :=
  if 48 ≤ c.toNat ∧ c.toNat ≤ 57 then some (c.toNat - 48) else none

/-- Accumulating decimal scan of a character list: the digit loop both the
integer part and the fraction part of a `parseFloat` run perform. -/
def digitsValAux : List Char → Nat → Option Nat
  | [], acc => some acc
  | c :: cs, acc =>
    match digitVal c with
    | some d => digitsValAux cs (acc * 10 + d)
    | none => none

/-- Value of a character list that must consist of at least one digit. -/
def digitsVal (cs : List Char) : Option Nat :=
  match cs with
  | [] => none
  | _ :: _ => digitsValAux cs 0

theorem digitVal_digitChar {d : Nat} (hd : d < 10) : digitVal (digitChar d) = some d := by
  interval_cases d <;> decide

theorem digitsValAux_append (l1 l2 : List Char) (acc : Nat) :
    digitsValAux (l1 ++ l2) acc =
      match digitsValAux l1 acc with
      | some a => digitsValAux l2 a
      | none => none := by
  induction l1 generalizing acc with
  | nil => rfl
  | cons c cs ih =>
    simp only [List.cons_append, digitsValAux]
    rcases h : digitVal c with _ | d
    · rfl
    · exact ih (acc * 10 + d)

theorem digitsValAux_natDigits (n : Nat) :
    ∀ acc, digitsValAux (natDigits n) acc = some (acc * 10 ^ (natDigits n).length + n) := by
  induction n using Nat.strong_induction_on with
  | _ n ih =>
    intro acc
    rw [natDigits]
    split
    · next h =>
      simp [digitsValAux, digitVal_digitChar h]
    · next h =>
      rw [digitsValAux_append, ih (n / 10) (Nat.div_lt_self (by omega) (by omega)) acc]
      simp only [digitsValAux, digitVal_digitChar (Nat.mod_lt n (show 0 < 10 by omega))]
      have hlen : (natDigits (n / 10) ++ [digitChar (n % 10)]).length
          = (natDigits (n / 10)).length + 1 := by
        simp
      rw [hlen, pow_succ]
      congr 1
      have hdm : 10 * (n / 10) + n % 10 = n := Nat.div_add_mod n 10
      set L := 10 ^ (natDigits (n / 10)).length with hL
      ring_nf
      omega

theorem digitsVal_natDigits (n : Nat) : digitsVal (natDigits n) = some n := by
  rcases h : natDigits n with _ | ⟨c, cs⟩
  · exact absurd h (natDigits_ne_nil n)
  · have := digitsValAux_natDigits n 0
    rw [h] at this
    simpa [digitsVal] using this

/-- Left zero padding to width `k`: MySQL prints the fraction part of a
DECIMAL(p, s) value with exactly `s` digits. -/
def padZeros (k : Nat) (cs : List Char) : List Char :=
  List.replicate (k - cs.length) '0' ++ cs

theorem digitsValAux_replicate_zero (j : Nat) (cs : List Char) (acc : Nat) :
    digitsValAux (List.replicate j '0' ++ cs) acc = digitsValAux cs (acc * 10 ^ j) := by
  induction j generalizing acc with
  | zero => simp
  | succ j ih =>
    have h0 : digitVal '0' = some 0 := by decide
    rw [List.replicate_succ, List.cons_append]
    simp only [digitsValAux, h0]
    rw [ih (acc * 10 + 0)]
    congr 1
    ring

theorem padZeros_length {k : Nat} {cs : List Char} (h : cs.length ≤ k) :
    (padZeros k cs).length = k := by
  simp [padZeros]
  omega

theorem padZeros_mem_decDigits {k : Nat} {cs : List Char}
    (h : ∀ c ∈ cs, c ∈ decDigits) : ∀ c ∈ padZeros k cs, c ∈ decDigits := by
  intro c hc
  rcases List.mem_append.1 hc with hc | hc
  · rw [List.eq_of_mem_replicate hc]
    decide
  · exact h c hc

theorem digitsVal_padZeros_natDigits {s n : Nat} (hs : 1 ≤ s) (hn : n < 10 ^ s) :
    digitsVal (padZeros s (natDigits n)) = some n := by
  have hne : padZeros s (natDigits n) ≠ [] := by
    intro h
    have := congrArg List.length h
    rw [padZeros_length (natDigits_length_le hs hn)] at this
    simp at this
    omega
  rcases h : padZeros s (natDigits n) with _ | ⟨c, cs⟩
  · exact absurd h hne
  · rw [digitsVal, ← h, padZeros, digitsValAux_replicate_zero]
    have := digitsValAux_natDigits n (0 * 10 ^ (s - (natDigits n).length))
    simpa using this


/-- Character form of a DECIMAL(p, s) column value as the mysql2 driver hands
it to JS: an optional minus sign, the integer digits, a dot, and exactly `s`
fraction digits.  The column content is modelled by the integer `v`, the
stored value scaled by `10 ^ s`. -/
def decimalChars (s : Nat) (v : Int) : List Char :=
  (if v < 0 then ['-'] else []) ++
    natDigits (v.natAbs / 10 ^ s) ++ '.' :: padZeros s (natDigits (v.natAbs % 10 ^ s))

/-- The decimal text of a DECIMAL(p, s) column value. -/
def decimalText (s : Nat) (v : Int) : String := String.mk (decimalChars s v)

/-- The fractional-notation scan of JS `parseFloat` on a character list that
does not start with a sign: integer digits up to an optional dot, then
fraction digits; `none` models NaN. -/
def parseUnsigned (cs : List Char) : Option ℚ :=
  match digitsVal (cs.takeWhile (fun c => c != '.')) with
  | none => none
  | some i =>
    match cs.dropWhile (fun c => c != '.') with
    | [] => some (i : ℚ)
    | _ :: frac =>
      match digitsVal frac with
      | none => none
      | some f => some ((i : ℚ) + (f : ℚ) / 10 ^ frac.length)

/-- JS `parseFloat` (as applied at server.js lines 336-337 and 367-368),
restricted to the decimal texts the driver produces: an optional leading
minus negates the value of the rest. -/
def parseFloatQ (str : String) : Option ℚ :=
  match str.data with
  | [] => none
  | c :: cs =>
    if c = '-' then (parseUnsigned cs).map (fun q => -q) else parseUnsigned (c :: cs)

theorem takeWhile_append_of_forall {p : Char → Bool} {l1 : List Char}
    (h : ∀ c ∈ l1, p c = true) (l2 : List Char) :
    (l1 ++ l2).takeWhile p = l1 ++ l2.takeWhile p := by
  induction l1 with
  | nil => simp
  | cons c cs ih =>
    have hc : p c = true := h c (by simp)
    simp only [List.cons_append, List.takeWhile_cons, hc]
    simp [ih (fun x hx => h x (by simp [hx]))]

theorem dropWhile_append_of_forall {p : Char → Bool} {l1 : List Char}
    (h : ∀ c ∈ l1, p c = true) (l2 : List Char) :
    (l1 ++ l2).dropWhile p = l2.dropWhile p := by
  induction l1 with
  | nil => simp
  | cons c cs ih =>
    have hc : p c = true := h c (by simp)
    simp only [List.cons_append, List.dropWhile_cons, hc]
    simp [ih (fun x hx => h x (by simp [hx]))]

theorem decDigits_ne_dot : ∀ c ∈ decDigits, (c != '.') = true := by decide

theorem decDigits_ne_minus : ∀ c ∈ decDigits, c ≠ '-' := by decide

theorem parseUnsigned_core {s q rp : Nat} (hs : 1 ≤ s) (hrp : rp < 10 ^ s) :
    parseUnsigned (natDigits q ++ '.' :: padZeros s (natDigits rp))
      = some ((q : ℚ) + (rp : ℚ) / 10 ^ s) := by
  have hq : ∀ c ∈ natDigits q, (c != '.') = true :=
    fun c hc => decDigits_ne_dot c (natDigits_mem_decDigits q c hc)
  have htake : ((natDigits q ++ '.' :: padZeros s (natDigits rp)).takeWhile
      (fun c => c != '.')) = natDigits q := by
    rw [takeWhile_append_of_forall hq]
    simp [List.takeWhile_cons]
  have hdrop : ((natDigits q ++ '.' :: padZeros s (natDigits rp)).dropWhile
      (fun c => c != '.')) = '.' :: padZeros s (natDigits rp) := by
    rw [dropWhile_append_of_forall hq]
    simp [List.dropWhile_cons]
  rw [parseUnsigned, htake, digitsVal_natDigits, hdrop]
  simp only [digitsVal_padZeros_natDigits hs hrp,
    padZeros_length (natDigits_length_le hs hrp)]

/-- Round trip: parsing the driver text of a DECIMAL(p, s) column value
recovers exactly the stored value. -/
theorem parseFloatQ_decimalText {s : Nat} (hs : 1 ≤ s) (v : Int) :
    parseFloatQ (decimalText s v) = some ((v : ℚ) / 10 ^ s) := by
  have h10 : 0 < 10 ^ s := Nat.pos_pow_of_pos s (by omega)
  have hval : ((v.natAbs / 10 ^ s : Nat) : ℚ) + ((v.natAbs % 10 ^ s : Nat) : ℚ) / 10 ^ s
      = (v.natAbs : ℚ) / 10 ^ s := by
    have hdm : (10 ^ s) * (v.natAbs / 10 ^ s) + v.natAbs % 10 ^ s = v.natAbs :=
      Nat.div_add_mod _ _
    have h10q : ((10 : ℚ) ^ s) ≠ 0 := by positivity
    field_simp
    rw [mul_comm]
    exact_mod_cast hdm
  rcases hne : natDigits (v.natAbs / 10 ^ s) with _ | ⟨c0, rest⟩
  · exact absurd hne (natDigits_ne_nil _)
  have hc0 : c0 ∈ decDigits := natDigits_mem_decDigits _ c0 (by rw [hne]; simp)
  have hc0m : ¬ (c0 = '-') := decDigits_ne_minus c0 hc0
  have hcore : parseUnsigned (natDigits (v.natAbs / 10 ^ s) ++
      '.' :: padZeros s (natDigits (v.natAbs % 10 ^ s)))
      = some ((v.natAbs : ℚ) / 10 ^ s) := by
    rw [parseUnsigned_core hs (Nat.mod_lt _ h10), hval]
  by_cases hv : v < 0
  · have habs : ((v.natAbs : Nat) : ℚ) = -(v : ℚ) := by
      have h1 : (v.natAbs : ℤ) = -v := by omega
      calc ((v.natAbs : Nat) : ℚ) = ((v.natAbs : ℤ) : ℚ) := (Int.cast_natCast _).symm
      _ = ((-v : ℤ) : ℚ) := by rw [h1]
      _ = -(v : ℚ) := by push_cast; ring
    rw [parseFloatQ, decimalText, decimalChars, if_pos hv]
    simp only [List.singleton_append, List.cons_append, List.nil_append]
    rw [if_pos trivial, hcore]
    simp only [Option.map_some']
    rw [habs]
    congr 1
    ring
  · have habs : ((v.natAbs : Nat) : ℚ) = (v : ℚ) := by
      have h1 : (v.natAbs : ℤ) = v := by omega
      calc ((v.natAbs : Nat) : ℚ) = ((v.natAbs : ℤ) : ℚ) := (Int.cast_natCast _).symm
      _ = (v : ℚ) := by rw [h1]
    rw [parseFloatQ, decimalText, decimalChars, if_neg hv]
    simp only [List.nil_append]
    rw [hne]
    simp only [List.cons_append]
    rw [if_neg hc0m, ← List.cons_append, ← hne, hcore, habs]


theorem decimalText_ne_empty (s : Nat) (v : Int) : decimalText s v ≠ "" := by
  intro h
  have hd := congrArg String.data h
  simp only [decimalText] at hd
  have hlen := congrArg List.length hd
  simp [decimalChars] at hlen

/-- A column value as the mysql2 driver delivers it to JS: a DECIMAL column
arrives as SQL NULL or as decimal text. -/
inductive SqlValue where
  | null
  | text (str : String)
deriving DecidableEq, Repr

/-- The driver value of a DECIMAL(p, s) cell whose stored content (scaled by
`10 ^ s`) is `v`. -/
def decimalCell (s : Nat) (v : Option Int) : SqlValue :=
  match v with
  | none => SqlValue.null
  | some n => SqlValue.text (decimalText s n)

/-- The JS expression `cell ? parseFloat(cell) : null` on a driver value:
SQL NULL is falsy, and a string is falsy exactly when it is empty. -/
def numField (cell : SqlValue) : Option ℚ :=
  match cell with
  | SqlValue.null => none
  | SqlValue.text str => if str = "" then none else parseFloatQ str

theorem numField_decimalCell {s : Nat} (hs : 1 ≤ s) (v : Option Int) :
    numField (decimalCell s v) = v.map (fun n : ℤ => (n : ℚ) / 10 ^ s) := by
  cases v with
  | none => rfl
  | some n =>
    simp only [decimalCell, numField, Option.map_some']
    rw [if_neg (decimalText_ne_empty s n), parseFloatQ_decimalText hs]

/-- One row of the `countries` table (initDatabase, server.js lines 76-92).
DECIMAL columns are modelled by their stored integer content:
`exchange_rate` is DECIMAL(20, 6), scaled by 10^6, and `estimated_gdp` is
DECIMAL(30, 2), scaled by 10^2.  The auto-increment `id` surrogate is not
modelled. -/
structure CountryRow where
  name : String
  capital : Option String
  region : Option String
  population : Int
  currency_code : Option String
  exchange_rate : Option Int
  estimated_gdp : Option Int
  flag_url : Option String
  last_refreshed_at : Nat
deriving DecidableEq, Repr

/-- The JSON body the country endpoints build from one row (server.js lines
329-340 and 360-371). -/
structure CountryResponse where
  name : String
  capital : Option String
  region : Option String
  population : Int
  currency_code : Option String
  exchange_rate : Option ℚ
  estimated_gdp : Option ℚ
  flag_url : Option String
  last_refreshed_at : Nat
deriving DecidableEq, Repr

/-- The response mapping of the country endpoints: the DECIMAL columns go
through the driver text and `value ? parseFloat(value) : null`; the other
columns pass through. -/
def rowToResponse (r : CountryRow) : CountryResponse :=
  { name := r.name, capital := r.capital, region := r.region,
    population := r.population, currency_code := r.currency_code,
    exchange_rate := numField (decimalCell 6 r.exchange_rate),
    estimated_gdp := numField (decimalCell 2 r.estimated_gdp),
    flag_url := r.flag_url, last_refreshed_at := r.last_refreshed_at }

/-- MySQL rounds a numeric value inserted into a DECIMAL(p, s) column to `s`
fraction digits, rounding halfway cases away from zero; the stored content is
the resulting integer, scaled by `10 ^ s`. -/
def mysqlDecimal (s : Nat) (q : ℚ) : Int :=
  if q < 0 then -⌊-q * 10 ^ s + 1 / 2⌋ else ⌊q * 10 ^ s + 1 / 2⌋

/-- The case-insensitive key under which the UNIQUE `name` column and the
`LOWER(name) = LOWER(?)` lookups compare names (the utf8mb4 collations in use
are case-insensitive): SQL LOWER, lowercasing character by character. -/
def nameKey (s : String) : String := String.mk (s.data.map Char.toLower)

/-- The case-insensitive keys of a row list. -/
def rowKeys (rows : List CountryRow) : List String := rows.map (fun r => nameKey r.name)

/-- The case-insensitive names of a source payload. -/
def payloadKeys (cs : List RawCountry) : List String := cs.map (fun c => nameKey c.name)

/-- The column values the INSERT statement (server.js lines 236-248) writes
for a reconciled record, stamping `last_refreshed_at = NOW()`. -/
def CountryRecord.toRow (rec : CountryRecord) (now : Nat) : CountryRow :=
  { name := rec.name, capital := rec.capital, region := rec.region,
    population := rec.population, currency_code := rec.currencyCode,
    exchange_rate := rec.exchangeRate.map (mysqlDecimal 6),
    estimated_gdp := rec.estimatedGdp.map (mysqlDecimal 2),
    flag_url := rec.flagUrl, last_refreshed_at := now }

/-- The ON DUPLICATE KEY UPDATE clause of the upsert: every column of the
existing row except the `name` key is overwritten from the new values, and
`last_refreshed_at` is restamped. -/
def overwriteRow (r : CountryRow) (rec : CountryRecord) (now : Nat) : CountryRow :=
  { rec.toRow now with name := r.name }

/-- One `INSERT ... ON DUPLICATE KEY UPDATE` (server.js lines 236-248): the
UNIQUE `name` key is case-insensitive, so a row whose key matches is
overwritten in place; otherwise a new row is appended. -/
def upsertOne (now : Nat) (rec : CountryRecord) (rows : List CountryRow) : List CountryRow :=
  if nameKey rec.name ∈ rowKeys rows then
    rows.map (fun r => if nameKey r.name = nameKey rec.name then overwriteRow r rec now else r)
  else
    rows ++ [rec.toRow now]

/-- The refresh upsert loop (server.js lines 211-249): the i-th country is
reconciled with the multiplier `m i` drawn for that iteration and upserted. -/
def upsertList (now : Nat) (rates : RateMapping) (m : Nat → ℚ) :
    Nat → List RawCountry → List CountryRow → List CountryRow
  | _, [], rows => rows
  | i, c :: cs, rows =>
    upsertList now rates m (i + 1) cs (upsertOne now (reconcile rates (m i) c) rows)

/-- The singleton `refresh_status` row (id = 1): `last_refreshed_at` is a
TIMESTAMP column with DEFAULT CURRENT_TIMESTAMP (hence never NULL once the
row exists) and `total_countries` an INT with DEFAULT 0. -/
structure StatusRow where
  last_refreshed_at : Nat
  total_countries : Nat
deriving DecidableEq, Repr

/-- The whole persistent state: the `countries` table, the optional
`refresh_status` row, and the generated `cache/summary.png` artifact
(opaque, represented by the timestamp of the refresh that wrote it). -/
structure ServerState where
  countries : List CountryRow
  refresh_status : Option StatusRow
  summaryPng : Option Nat
deriving DecidableEq, Repr

/-- initDatabase (server.js lines 94-107): `INSERT IGNORE INTO refresh_status
(id) VALUES (1)` creates the status row with the column defaults
(`last_refreshed_at = CURRENT_TIMESTAMP`, `total_countries = 0`) when it does
not exist, and keeps an existing row untouched. -/
def initDatabase (now : Nat) (st : ServerState) : ServerState :=
  match st.refresh_status with
  | none => { st with refresh_status := some { last_refreshed_at := now, total_countries := 0 } }
  | some _ => st

/-- The body of GET /status (server.js lines 398-417). -/
structure StatusResponse where
  total_countries : Nat
  last_refreshed_at : Option Nat
deriving DecidableEq, Repr

/-- GET /status (server.js lines 398-417): read the singleton row; the
defensive empty-result branch answers `{0, null}`. -/
def getStatus (st : ServerState) : StatusResponse :=
  match st.refresh_status with
  | none => { total_countries := 0, last_refreshed_at := none }
  | some r => { total_countries := r.total_countries, last_refreshed_at := some r.last_refreshed_at }

/-- The response of POST /countries/refresh: 200 with the success body, 503
with the unavailable-source error and a details string, or the generic 500. -/
inductive RefreshResult where
  | ok (message : String) (total_countries : Nat) (last_refreshed_at : Nat)
  | serviceUnavailable (error details : String)
  | internalError (error : String)
deriving DecidableEq, Repr

/-- The catch block of the refresh handler (server.js lines 280-294): an error
whose message contains 'Could not fetch data' (always at the start here)
becomes the 503 response with the message as details; everything else becomes
the generic 500. -/
def refreshCatch (msg : String) : RefreshResult :=
  if List.isPrefixOf "Could not fetch data".data msg.data then
    RefreshResult.serviceUnavailable "External data source unavailable" msg
  else RefreshResult.internalError "Internal server error"

/-- POST /countries/refresh (server.js lines 181-295).  The fetch outcomes are
inputs: `none` models a failed or timed-out axios call, whose catch throws the
fixed 'Could not fetch data from …' message, aborting the transaction with
nothing written.  On success every entry is reconciled (with multiplier `m i`
for the i-th entry) and upserted, `total_countries` is recomputed as
`COUNT(*)` over the whole table, and the status row is updated in the same
transaction.  `imageOk` tells whether the post-commit summary-image
generation succeeds; its failure is swallowed.  If the status row is missing,
the post-commit read `statusResult[0].last_refreshed_at` throws after the
commit, producing the generic 500 even though the rows were written. -/
def refresh (st : ServerState) (countriesFetch : Option (List RawCountry))
    (ratesFetch : Option RateMapping) (m : Nat → ℚ) (now : Nat) (imageOk : Bool) :
    RefreshResult × ServerState :=
  match countriesFetch with
  | none => (refreshCatch "Could not fetch data from restcountries.com", st)
  | some countries =>
    match ratesFetch with
    | none => (refreshCatch "Could not fetch data from open.er-api.com", st)
    | some rates =>
      let rows := upsertList now rates m 0 countries st.countries
      match st.refresh_status with
      | none =>
        (RefreshResult.internalError "Internal server error",
         { st with countries := rows })
      | some _ =>
        (RefreshResult.ok "Countries data refreshed successfully" rows.length now,
         { countries := rows
           refresh_status := some { last_refreshed_at := now, total_countries := rows.length }
           summaryPng := if imageOk then some now else st.summaryPng })

/-- The response of DELETE /countries/:name.  The internal-failure shape (the
500 produced by the handler's catch) is part of the response type although the
model never produces it. -/
inductive DeleteResult where
  | ok (message : String)
  | notFound (error : String)
  | internalError (error : String)
deriving DecidableEq, Repr

/-- HTTP status code of a delete response. -/
def DeleteResult.code : DeleteResult → Nat
  | DeleteResult.ok _ => 200
  | DeleteResult.notFound _ => 404
  | DeleteResult.internalError _ => 500

/-- DELETE /countries/:name (server.js lines 379-395): `DELETE FROM countries
WHERE LOWER(name) = LOWER(?)`; `affectedRows = 0` yields the 404 'Country not
found' response, otherwise the success message. -/
def deleteCountry (st : ServerState) (nm : String) : DeleteResult × ServerState :=
  let affected := st.countries.countP (fun r => nameKey r.name == nameKey nm)
  if affected = 0 then (DeleteResult.notFound "Country not found", st)
  else (DeleteResult.ok "Country deleted successfully",
        { st with countries := st.countries.filter (fun r => !(nameKey r.name == nameKey nm)) })

/-- Query parameters of GET /countries. -/
structure ListQuery where
  region : Option String := none
  currency : Option String := none
  sort : Option String := none
deriving DecidableEq, Repr

/-- JS `if (region)` on a query parameter: only a present, nonempty string
activates the corresponding filter. -/
def activeParam (p : Option String) : Option String :=
  match p with
  | some v => if v = "" then none else some v
  | none => none

/-- SQL `col = ?` under the case-insensitive collation; a NULL column never
matches. -/
def colMatches (col : Option String) (v : String) : Bool :=
  match col with
  | some str => nameKey str == nameKey v
  | none => false

/-- One optional equality condition of the WHERE clause: filter only when the
parameter is active. -/
def applyFilter (p : Option String) (pred : CountryRow → String → Bool)
    (rows : List CountryRow) : List CountryRow :=
  match p with
  | some v => rows.filter (fun r => pred r v)
  | none => rows

/-- The WHERE clause of GET /countries (server.js lines 302-313): the region
condition is added first, then the currency condition; the filters are
ANDed. -/
def filterRows (q : ListQuery) (rows : List CountryRow) : List CountryRow :=
  applyFilter (activeParam q.currency) (fun r v => colMatches r.currency_code v)
    (applyFilter (activeParam q.region) (fun r v => colMatches r.region v) rows)

/-- ORDER BY key for `estimated_gdp`: MySQL sorts NULL below every non-null
value, which is the bottom element of `WithBot ℤ`. -/
def gdpKey (r : CountryRow) : WithBot ℤ :=
  match r.estimated_gdp with
  | none => ⊥
  | some n => (n : WithBot ℤ)

/-- The ORDER BY clause of GET /countries (server.js lines 315-325), as a
deterministic sort matching MySQL's ordering semantics (NULL below every
value, so DESC places NULLs last); anything but the four recognized sort
values orders by name ascending. -/
def sortRows (sort : Option String) (rows : List CountryRow) : List CountryRow :=
  match sort with
  | some "gdp_desc" => rows.insertionSort (fun a b => gdpKey b ≤ gdpKey a)
  | some "gdp_asc" => rows.insertionSort (fun a b => gdpKey a ≤ gdpKey b)
  | some "population_desc" => rows.insertionSort (fun a b => b.population ≤ a.population)
  | some "population_asc" => rows.insertionSort (fun a b => a.population ≤ b.population)
  | _ => rows.insertionSort (fun a b => nameKey a.name ≤ nameKey b.name)

/-- GET /countries (server.js lines 298-345): filter, sort, and map every row
through the response mapping. -/
def listCountries (st : ServerState) (q : ListQuery) : List CountryResponse :=
  (sortRows q.sort (filterRows q st.countries)).map rowToResponse

/-- The response of GET /countries/:name. -/
inductive LookupResult where
  | ok (body : CountryResponse)
  | notFound (error : String)
deriving DecidableEq, Repr

/-- GET /countries/:name (server.js lines 348-376): `WHERE LOWER(name) =
LOWER(?)`, first matching row, 404 when none. -/
def getCountryByName (st : ServerState) (nm : String) : LookupResult :=
  match st.countries.find? (fun r => nameKey r.name == nameKey nm) with
  | some r => LookupResult.ok (rowToResponse r)
  | none => LookupResult.notFound "Country not found"

/-- A GET response of the server, covering every registered GET route. -/
inductive GetResponse where
  | list (body : List CountryResponse)
  | one (body : CountryResponse)
  | statusOk (body : StatusResponse)
  | image (png : Nat)
  | health
  | notFound (error : String)
deriving DecidableEq, Repr

/-- GET /countries/image handler (server.js lines 420-428): serve
cache/summary.png when it exists, else 404 'Summary image not found'. -/
def getImage (st : ServerState) : GetResponse :=
  match st.summaryPng with
  | some png => GetResponse.image png
  | none => GetResponse.notFound "Summary image not found"

/-- An Express route pattern: a fixed segment list, or a fixed head segment
followed by one named parameter. -/
inductive RoutePattern where
  | exact (segments : List String)
  | oneParam (head : String)

/-- Whether a route pattern matches a path, given as its segment list. -/
def routeMatches : RoutePattern → List String → Bool
  | RoutePattern.exact segs, path => segs == path
  | RoutePattern.oneParam h, path =>
    match path with
    | [a, _] => a == h
    | _ => false

/-- Express dispatch for GET requests: the GET routes in registration order
are /countries (line 298), /countries/:name (line 348), /status (line 398),
/countries/image (line 420), / (line 431), then the catch-all 404 handler
(line 440).  The first pattern that matches the path wins, so a request for
/countries/image is handled by /countries/:name with name = "image". -/
def dispatchGet (st : ServerState) (q : ListQuery) (path : List String) : GetResponse :=
  if routeMatches (RoutePattern.exact ["countries"]) path then
    GetResponse.list (listCountries st q)
  else if routeMatches (RoutePattern.oneParam "countries") path then
    match getCountryByName st ((path.drop 1).headD "") with
    | LookupResult.ok body => GetResponse.one body
    | LookupResult.notFound e => GetResponse.notFound e
  else if routeMatches (RoutePattern.exact ["status"]) path then
    GetResponse.statusOk (getStatus st)
  else if routeMatches (RoutePattern.exact ["countries", "image"]) path then
    getImage st
  else if routeMatches (RoutePattern.exact []) path then
    GetResponse.health
  else GetResponse.notFound "Endpoint not found"


/-- C3: if either external fetch fails during a refresh, the refresh aborts
with the 503 SourceUnavailable response carrying a details string, and the
stored country rows and the refresh_status row are left exactly as they were
before the refresh began (no partial writes). -/
theorem refresh_source_failure (st : ServerState) (cf : Option (List RawCountry))
    (rf : Option RateMapping) (m : Nat → ℚ) (now : Nat) (io : Bool) :
    (cf = none →
      refresh st cf rf m now io =
        (RefreshResult.serviceUnavailable "External data source unavailable"
          "Could not fetch data from restcountries.com", st)) ∧
    (∀ cs, cf = some cs → rf = none →
      refresh st cf rf m now io =
        (RefreshResult.serviceUnavailable "External data source unavailable"
          "Could not fetch data from open.er-api.com", st)) := by
  have h1 : refreshCatch "Could not fetch data from restcountries.com"
      = RefreshResult.serviceUnavailable "External data source unavailable"
          "Could not fetch data from restcountries.com" := by decide
  have h2 : refreshCatch "Could not fetch data from open.er-api.com"
      = RefreshResult.serviceUnavailable "External data source unavailable"
          "Could not fetch data from open.er-api.com" := by decide
  constructor
  · intro h
    subst h
    show (refreshCatch "Could not fetch data from restcountries.com", st) = _
    rw [h1]
  · intro cs h hr
    subst h
    subst hr
    show (refreshCatch "Could not fetch data from open.er-api.com", st) = _
    rw [h2]

/-- Shared concrete state: one stored Nigeria row with a complete status row
and a generated artifact. -/
def nigeriaRow : CountryRow :=
  { name := "Nigeria", capital := some "Abuja", region := some "Africa",
    population := 200000000, currency_code := some "NGN",
    exchange_rate := some 1600000000, estimated_gdp := some 18750000000,
    flag_url := none, last_refreshed_at := 2 }

def st3 : ServerState :=
  { countries := [nigeriaRow],
    refresh_status := some { last_refreshed_at := 2, total_countries := 1 },
    summaryPng := some 2 }

/-- Concrete witness for C3: both failing fetch kinds abort with the 503
response and leave a nonempty prior state byte-for-byte untouched. -/
theorem refresh_source_failure_witness :
    refresh st3 none (some ngnRates) (fun _ => 1500) 9 true =
      (RefreshResult.serviceUnavailable "External data source unavailable"
        "Could not fetch data from restcountries.com", st3) ∧
    refresh st3 (some [nigeriaRaw]) none (fun _ => 1500) 9 true =
      (RefreshResult.serviceUnavailable "External data source unavailable"
        "Could not fetch data from open.er-api.com", st3) :=
  ⟨(refresh_source_failure st3 none (some ngnRates) (fun _ => 1500) 9 true).1 rfl,
   (refresh_source_failure st3 (some [nigeriaRaw]) none (fun _ => 1500) 9 true).2
      [nigeriaRaw] rfl rfl⟩

/-- C5 (amended): before any refresh has completed, the status endpoint
returns total_countries = 0 and last_refreshed_at equal to the database
initialization timestamp — which is not null, because initDatabase creates
the status row with DEFAULT CURRENT_TIMESTAMP.  The claimed `{0, null}`
default is produced only by the defensive branch for a missing status row,
which initDatabase makes unreachable. -/
theorem status_before_first_refresh (now : Nat) (st : ServerState)
    (h : st.refresh_status = none) :
    getStatus (initDatabase now st) =
      { total_countries := 0, last_refreshed_at := some now } ∧
    (getStatus (initDatabase now st)).last_refreshed_at ≠ none ∧
    getStatus st = { total_countries := 0, last_refreshed_at := none } := by
  refine ⟨?_, ?_, ?_⟩ <;> simp [initDatabase, getStatus, h]

/-- Concrete witness for C5 (amended): initialization at time 5 gives status
`{0, some 5}`. -/
theorem status_before_first_refresh_witness :
    getStatus (initDatabase 5 { countries := [], refresh_status := none, summaryPng := none })
      = { total_countries := 0, last_refreshed_at := some 5 } ∧
    (getStatus (initDatabase 5
        { countries := [], refresh_status := none, summaryPng := none })).last_refreshed_at
      ≠ none ∧
    getStatus { countries := [], refresh_status := none, summaryPng := none }
      = { total_countries := 0, last_refreshed_at := none } :=
  status_before_first_refresh 5 { countries := [], refresh_status := none, summaryPng := none } rfl

/-- Counterexample to C5 as stated: after initialization at time 5 and before
any refresh, GET /status answers total_countries = 0 but last_refreshed_at =
some 5 (the initialization timestamp), not null. -/
theorem status_before_first_refresh_counterexample :
    getStatus (initDatabase 5 { countries := [], refresh_status := none, summaryPng := none })
      = { total_countries := 0, last_refreshed_at := some 5 } ∧
    getStatus (initDatabase 5 { countries := [], refresh_status := none, summaryPng := none })
      ≠ { total_countries := 0, last_refreshed_at := none } := by
  constructor
  · rfl
  · decide

/-- C7: delete matches the stored name case-insensitively: when no stored row
matches under any case, the handler answers the 404 NotFound response —
distinct from the 500 internal failure — and leaves the state unchanged; when
a row matches, it answers success, removes every case-insensitive match and
keeps every other row. -/
theorem delete_case_insensitive (st : ServerState) (nm : String) :
    ((∀ row ∈ st.countries, nameKey row.name ≠ nameKey nm) →
      deleteCountry st nm = (DeleteResult.notFound "Country not found", st)) ∧
    ((∃ row ∈ st.countries, nameKey row.name = nameKey nm) →
      (deleteCountry st nm).1 = DeleteResult.ok "Country deleted successfully" ∧
      (∀ row ∈ (deleteCountry st nm).2.countries, nameKey row.name ≠ nameKey nm) ∧
      (∀ row ∈ st.countries, nameKey row.name ≠ nameKey nm →
        row ∈ (deleteCountry st nm).2.countries)) ∧
    (∀ msg, (DeleteResult.notFound "Country not found").code
      ≠ (DeleteResult.internalError msg).code) := by
  refine ⟨?_, ?_, ?_⟩
  · intro h
    have hz : st.countries.countP (fun r => nameKey r.name == nameKey nm) = 0 := by
      rw [List.countP_eq_zero]
      intro r hr
      simpa using h r hr
    rw [deleteCountry]
    simp [hz]
  · intro h
    have hp : 0 < st.countries.countP (fun r => nameKey r.name == nameKey nm) := by
      rw [List.countP_pos_iff]
      rcases h with ⟨row, hmem, hk⟩
      exact ⟨row, hmem, by simpa using hk⟩
    have hnz : ¬ st.countries.countP (fun r => nameKey r.name == nameKey nm) = 0 := by omega
    refine ⟨?_, ?_, ?_⟩
    · rw [deleteCountry]
      simp [hnz]
    · intro row hrow
      rw [deleteCountry] at hrow
      simp only [hnz, if_neg, if_false] at hrow
      have := List.of_mem_filter hrow
      simpa using this
    · intro row hrow hk
      rw [deleteCountry]
      simp only [hnz, if_neg, if_false]
      exact List.mem_filter.2 ⟨hrow, by simpa using hk⟩
  · intro msg
    simp [DeleteResult.code]

/-- Shared concrete state for the delete witness: one row named `Nigeria`. -/
def row7 : CountryRow :=
  { name := "Nigeria", capital := none, region := none, population := 5,
    currency_code := none, exchange_rate := none, estimated_gdp := some 0,
    flag_url := none, last_refreshed_at := 1 }

/-- Shared concrete state holding exactly `row7`. -/
def st7 : ServerState :=
  { countries := [row7],
    refresh_status := some { last_refreshed_at := 1, total_countries := 1 },
    summaryPng := none }

/-- Concrete witness for C7: deleting `France` (absent under any case) gives
the NotFound response and changes nothing; deleting `nigeria` after `Nigeria`
was stored succeeds and removes the row. -/
theorem delete_case_insensitive_witness :
    deleteCountry st7 "France" = (DeleteResult.notFound "Country not found", st7) ∧
    ((deleteCountry st7 "nigeria").1 = DeleteResult.ok "Country deleted successfully" ∧
      (∀ row ∈ (deleteCountry st7 "nigeria").2.countries,
        nameKey row.name ≠ nameKey "nigeria")) :=
  ⟨(delete_case_insensitive st7 "France").1 (by decide),
   ⟨((delete_case_insensitive st7 "nigeria").2.1 ⟨row7, by decide, by decide⟩).1,
    ((delete_case_insensitive st7 "nigeria").2.1 ⟨row7, by decide, by decide⟩).2.1⟩⟩


theorem reconcile_name (rates : RateMapping) (m : ℚ) (c : RawCountry) :
    (reconcile rates m c).name = c.name := by
  rcases hc : c.currencies with _ | ⟨cur, rest⟩
  · simp [reconcile, hc]
  · rcases hl : lookupRate rates cur.code with _ | r
    · simp [reconcile, hc, hl]
    · by_cases hr : r = 0 <;> simp [reconcile, hc, hl, hr]

theorem rowKeys_upsertOne (now : Nat) (rec : CountryRecord) (rows : List CountryRow) :
    rowKeys (upsertOne now rec rows) =
      if nameKey rec.name ∈ rowKeys rows then rowKeys rows
      else rowKeys rows ++ [nameKey rec.name] := by
  rw [upsertOne]
  split
  · next h =>
    simp only [rowKeys, List.map_map]
    apply List.map_congr_left
    intro r _
    by_cases hk : nameKey r.name = nameKey rec.name <;>
      simp [hk, overwriteRow, CountryRecord.toRow]
  · next h =>
    simp [rowKeys, CountryRecord.toRow]

theorem rowKeys_nodup_upsertOne (now : Nat) (rec : CountryRecord)
    {rows : List CountryRow} (h : (rowKeys rows).Nodup) :
    (rowKeys (upsertOne now rec rows)).Nodup := by
  rw [rowKeys_upsertOne]
  split
  · exact h
  · next hmem => simp [List.nodup_append, h, hmem]

theorem rowKeys_toFinset_upsertOne (now : Nat) (rec : CountryRecord)
    (rows : List CountryRow) :
    (rowKeys (upsertOne now rec rows)).toFinset
      = insert (nameKey rec.name) (rowKeys rows).toFinset := by
  rw [rowKeys_upsertOne]
  split
  · next h => rw [Finset.insert_eq_self.2 (List.mem_toFinset.2 h)]
  · next h =>
    rw [List.toFinset_append]
    simp only [List.toFinset_cons, List.toFinset_nil, insert_emptyc_eq]
    rw [Finset.insert_eq, Finset.union_comm]

theorem rowKeys_nodup_upsertList (now : Nat) (rates : RateMapping) (m : Nat → ℚ) :
    ∀ (cs : List RawCountry) (i : Nat) (rows : List CountryRow),
      (rowKeys rows).Nodup → (rowKeys (upsertList now rates m i cs rows)).Nodup := by
  intro cs
  induction cs with
  | nil => intro i rows h; simpa [upsertList] using h
  | cons c cs ih =>
    intro i rows h
    rw [upsertList]
    exact ih (i + 1) _ (rowKeys_nodup_upsertOne now _ h)

theorem rowKeys_toFinset_upsertList (now : Nat) (rates : RateMapping) (m : Nat → ℚ) :
    ∀ (cs : List RawCountry) (i : Nat) (rows : List CountryRow),
      (rowKeys (upsertList now rates m i cs rows)).toFinset
        = (rowKeys rows).toFinset ∪ (payloadKeys cs).toFinset := by
  intro cs
  induction cs with
  | nil => intro i rows; simp [upsertList, payloadKeys]
  | cons c cs ih =>
    intro i rows
    rw [upsertList, ih, rowKeys_toFinset_upsertOne, reconcile_name]
    rw [show payloadKeys (c :: cs) = nameKey c.name :: payloadKeys cs from rfl]
    rw [List.toFinset_cons]
    rw [Finset.insert_union, Finset.union_insert]

/-- C4 (amended): after a successful refresh, the status row is updated — in
the same transactional step as the upserts — to the refresh timestamp and to
`total_countries` equal to the row count of the whole `countries` table,
which is the number of distinct case-insensitive names in the union of the
pre-refresh table and the source payload.  Only when every pre-refresh name
also occurs in the payload (in particular for an empty table) does this equal
the number of distinct case-insensitive names of the payload, as the claim
states; the counterexample shows the general disagreement. -/
theorem refresh_total_countries (st : ServerState) (countries : List RawCountry)
    (rates : RateMapping) (m : Nat → ℚ) (now : Nat) (io : Bool) (s0 : StatusRow)
    (hrow : st.refresh_status = some s0)
    (hnd : (rowKeys st.countries).Nodup) :
    (refresh st (some countries) (some rates) m now io).2.refresh_status
      = some { last_refreshed_at := now,
               total_countries :=
                 (refresh st (some countries) (some rates) m now io).2.countries.length } ∧
    (refresh st (some countries) (some rates) m now io).2.countries.length
      = ((rowKeys st.countries).toFinset ∪ (payloadKeys countries).toFinset).card ∧
    ((rowKeys st.countries).toFinset ⊆ (payloadKeys countries).toFinset →
      (refresh st (some countries) (some rates) m now io).2.countries.length
        = (payloadKeys countries).toFinset.card) ∧
    (refresh st (some countries) (some rates) m now io).1
      = RefreshResult.ok "Countries data refreshed successfully"
          (refresh st (some countries) (some rates) m now io).2.countries.length now := by
  have hred : refresh st (some countries) (some rates) m now io
      = (RefreshResult.ok "Countries data refreshed successfully"
            (upsertList now rates m 0 countries st.countries).length now,
          { countries := upsertList now rates m 0 countries st.countries,
            refresh_status :=
              some { last_refreshed_at := now,
                     total_countries :=
                       (upsertList now rates m 0 countries st.countries).length },
            summaryPng := if io then some now else st.summaryPng }) := by
    rw [refresh, hrow]
  have hlen : (upsertList now rates m 0 countries st.countries).length
      = ((rowKeys st.countries).toFinset ∪ (payloadKeys countries).toFinset).card := by
    have h1 : (rowKeys (upsertList now rates m 0 countries st.countries)).length
        = (upsertList now rates m 0 countries st.countries).length :=
      List.length_map _ _
    have h2 := rowKeys_nodup_upsertList now rates m countries 0 st.countries hnd
    have h3 := rowKeys_toFinset_upsertList now rates m countries 0 st.countries
    rw [← h1, ← List.toFinset_card_of_nodup h2, h3]
  refine ⟨?_, ?_, ?_, ?_⟩
  · rw [hred]
  · rw [hred]
    exact hlen
  · intro hsub
    rw [hred]
    simp only []
    rw [hlen, Finset.union_eq_right.2 hsub]
  · rw [hred]


/-- Shared concrete state: an empty table with an initialized status row. -/
def stEmpty : ServerState :=
  { countries := [],
    refresh_status := some { last_refreshed_at := 0, total_countries := 0 },
    summaryPng := none }

/-- Concrete witness for C4 (amended): refreshing an empty table with a
payload naming Nigeria twice under different casings stores one row and sets
the status, in the same step, to that count — the number of distinct
case-insensitive payload names. -/
theorem refresh_total_countries_witness :
    (refresh stEmpty (some [nigeriaRaw, { name := "NIGERIA" }]) (some ngnRates)
        (fun _ => 1500) 7 true).2.refresh_status
      = some { last_refreshed_at := 7,
               total_countries :=
                 (refresh stEmpty (some [nigeriaRaw, { name := "NIGERIA" }]) (some ngnRates)
                   (fun _ => 1500) 7 true).2.countries.length } ∧
    (refresh stEmpty (some [nigeriaRaw, { name := "NIGERIA" }]) (some ngnRates)
        (fun _ => 1500) 7 true).2.countries.length
      = (payloadKeys [nigeriaRaw, { name := "NIGERIA" }]).toFinset.card := by
  have h := refresh_total_countries stEmpty [nigeriaRaw, { name := "NIGERIA" }] ngnRates
    (fun _ => 1500) 7 true { last_refreshed_at := 0, total_countries := 0 } rfl (by decide)
  exact ⟨h.1, h.2.2.1 (by decide)⟩

/-- Shared concrete data: a stored row named `Atlantis`. -/
def atlantisRow : CountryRow :=
  { name := "Atlantis", capital := none, region := none, population := 1000,
    currency_code := none, exchange_rate := none, estimated_gdp := some 0,
    flag_url := none, last_refreshed_at := 0 }

/-- Shared concrete state: the table already holds `Atlantis`. -/
def atlantisState : ServerState :=
  { countries := [atlantisRow],
    refresh_status := some { last_refreshed_at := 0, total_countries := 1 },
    summaryPng := none }

/-- Counterexample to C4 as stated: refreshing a table that already holds
`Atlantis` with a payload naming only `Nigeria` keeps both rows (the refresh
never deletes), so the status records total_countries = 2, while the payload
of that refresh has exactly one distinct case-insensitive name. -/
theorem refresh_total_countries_counterexample :
    (refresh atlantisState (some [nigeriaRaw]) (some ngnRates)
        (fun _ => 1500) 10 true).2.refresh_status
      = some { last_refreshed_at := 10, total_countries := 2 } ∧
    (payloadKeys [nigeriaRaw]).toFinset.card = 1 ∧ (2 : Nat) ≠ 1 := by
  refine ⟨by decide, by decide, by decide⟩


theorem upsertOne_name_preserved (now : Nat) (rec : CountryRecord)
    {rows : List CountryRow} {row : CountryRow} (h : row ∈ rows) :
    ∃ row' ∈ upsertOne now rec rows, row'.name = row.name := by
  rw [upsertOne]
  split
  · refine ⟨if nameKey row.name = nameKey rec.name then overwriteRow row rec now else row,
      List.mem_map_of_mem _ h, ?_⟩
    by_cases hk : nameKey row.name = nameKey rec.name <;>
      simp [hk, overwriteRow, CountryRecord.toRow]
  · exact ⟨row, List.mem_append_left _ h, rfl⟩

theorem upsertList_name_preserved (now : Nat) (rates : RateMapping) (m : Nat → ℚ) :
    ∀ (cs : List RawCountry) (i : Nat) (rows : List CountryRow) (row : CountryRow),
      row ∈ rows →
      ∃ row' ∈ upsertList now rates m i cs rows, row'.name = row.name := by
  intro cs
  induction cs with
  | nil =>
    intro i rows row h
    exact ⟨row, by simpa [upsertList] using h, rfl⟩
  | cons c cs ih =>
    intro i rows row h
    obtain ⟨row1, h1, e1⟩ := upsertOne_name_preserved now (reconcile rates (m i) c) h
    obtain ⟨row2, h2, e2⟩ := ih (i + 1) _ row1 h1
    exact ⟨row2, by rwa [upsertList], e2.trans e1⟩

theorem upsertOne_not_matching_mem (now : Nat) (rec : CountryRecord)
    {rows : List CountryRow} {row : CountryRow} (h : row ∈ rows)
    (hk : nameKey row.name ≠ nameKey rec.name) :
    row ∈ upsertOne now rec rows := by
  rw [upsertOne]
  split
  · have heq : (fun r => if nameKey r.name = nameKey rec.name then overwriteRow r rec now else r) row
        = row := by simp [hk]
    have hm := List.mem_map_of_mem
      (fun r => if nameKey r.name = nameKey rec.name then overwriteRow r rec now else r) h
    rwa [heq] at hm
  · exact List.mem_append_left _ h

theorem upsertList_not_matching_mem (now : Nat) (rates : RateMapping) (m : Nat → ℚ) :
    ∀ (cs : List RawCountry) (i : Nat) (rows : List CountryRow) (row : CountryRow),
      row ∈ rows →
      (∀ c ∈ cs, nameKey c.name ≠ nameKey row.name) →
      row ∈ upsertList now rates m i cs rows := by
  intro cs
  induction cs with
  | nil =>
    intro i rows row h _
    simpa [upsertList] using h
  | cons c cs ih =>
    intro i rows row h hcs
    rw [upsertList]
    refine ih (i + 1) _ row ?_ (fun c' hc' => hcs c' (by simp [hc']))
    refine upsertOne_not_matching_mem now _ h ?_
    rw [reconcile_name]
    exact fun he => hcs c (by simp) he.symm

theorem length_upsertOne (now : Nat) (rec : CountryRecord) (rows : List CountryRow) :
    rows.length ≤ (upsertOne now rec rows).length := by
  rw [upsertOne]
  split
  · simp
  · simp

theorem length_upsertList (now : Nat) (rates : RateMapping) (m : Nat → ℚ) :
    ∀ (cs : List RawCountry) (i : Nat) (rows : List CountryRow),
      rows.length ≤ (upsertList now rates m i cs rows).length := by
  intro cs
  induction cs with
  | nil => intro i rows; simp [upsertList]
  | cons c cs ih =>
    intro i rows
    rw [upsertList]
    exact le_trans (length_upsertOne now _ rows) (ih (i + 1) _)

/-- The first stored row whose case-insensitive name is `k`. -/
def findByKey (rows : List CountryRow) (k : String) : Option CountryRow :=
  rows.find? (fun r => nameKey r.name == k)

theorem findByKey_eq_none {rows : List CountryRow} {k : String} :
    findByKey rows k = none ↔ k ∉ rowKeys rows := by
  rw [findByKey, List.find?_eq_none]
  constructor
  · intro h hk
    rcases List.mem_map.1 hk with ⟨r, hr, he⟩
    exact h r hr (by simp [he])
  · intro h r hr hbeq
    exact h (List.mem_map.2 ⟨r, hr, by simpa using hbeq⟩)

theorem find?_map_of_pred {α : Type} (p : α → Bool) (f : α → α)
    (hf : ∀ a, p (f a) = p a) :
    ∀ l : List α, List.find? p (List.map f l) = (List.find? p l).map f := by
  intro l
  induction l with
  | nil => rfl
  | cons a l ih =>
    rcases hp : p a with _ | _
    · simp [List.find?_cons, hf, hp, ih]
    · simp [List.find?_cons, hf, hp]

theorem findByKey_upsertOne_update {now : Nat} {rec : CountryRecord}
    {rows : List CountryRow} {old : CountryRow}
    (h : findByKey rows (nameKey rec.name) = some old) :
    findByKey (upsertOne now rec rows) (nameKey rec.name)
      = some (overwriteRow old rec now) := by
  have h' : List.find? (fun r => nameKey r.name == nameKey rec.name) rows = some old := h
  have hmem : nameKey rec.name ∈ rowKeys rows := by
    by_contra hk
    rw [← findByKey_eq_none] at hk
    rw [h] at hk
    exact Option.noConfusion hk
  have holde : nameKey old.name = nameKey rec.name := by
    simpa using List.find?_some h'
  rw [upsertOne, if_pos hmem, findByKey,
    find?_map_of_pred _ _ (fun r => by
      by_cases hk : nameKey r.name = nameKey rec.name <;>
        simp [hk, overwriteRow, CountryRecord.toRow])]
  rw [h']
  simp only [Option.map_some']
  rw [if_pos holde]

theorem findByKey_upsertOne_insert {now : Nat} {rec : CountryRecord}
    {rows : List CountryRow}
    (h : findByKey rows (nameKey rec.name) = none) :
    findByKey (upsertOne now rec rows) (nameKey rec.name)
      = some (rec.toRow now) := by
  have h' : List.find? (fun r => nameKey r.name == nameKey rec.name) rows = none := h
  have hmem : nameKey rec.name ∉ rowKeys rows := findByKey_eq_none.1 h
  rw [upsertOne, if_neg hmem, findByKey, List.find?_append, h']
  simp [CountryRecord.toRow]

theorem findByKey_upsertOne_other {now : Nat} {rec : CountryRecord}
    {rows : List CountryRow} {k : String} (hk : k ≠ nameKey rec.name) :
    findByKey (upsertOne now rec rows) k = findByKey rows k := by
  rw [upsertOne]
  split
  · rw [findByKey, find?_map_of_pred _ _ (fun r => by
      by_cases hr : nameKey r.name = nameKey rec.name <;>
        simp [hr, overwriteRow, CountryRecord.toRow]),
      show List.find? (fun r => nameKey r.name == k) rows = findByKey rows k from rfl]
    rcases hf : findByKey rows k with _ | r0
    · rfl
    · have hf' : List.find? (fun r => nameKey r.name == k) rows = some r0 := hf
      have hr0e : nameKey r0.name = k := by simpa using List.find?_some hf'
      simp only [Option.map_some']
      rw [if_neg (by rw [hr0e]; exact hk)]
  · rw [findByKey, List.find?_append,
      show List.find? (fun r => nameKey r.name == k) rows = findByKey rows k from rfl]
    rcases hf : findByKey rows k with _ | r0
    · simp [List.find?_cons, CountryRecord.toRow, Ne.symm hk, Option.or]
    · rfl

theorem findByKey_upsertList_other (now : Nat) (rates : RateMapping) (m : Nat → ℚ) :
    ∀ (cs : List RawCountry) (i : Nat) (rows : List CountryRow) (k : String),
      (∀ c ∈ cs, nameKey c.name ≠ k) →
      findByKey (upsertList now rates m i cs rows) k = findByKey rows k := by
  intro cs
  induction cs with
  | nil => intro i rows k _; rw [upsertList]
  | cons c cs ih =>
    intro i rows k h
    rw [upsertList, ih (i + 1) _ k (fun c' hc' => h c' (by simp [hc']))]
    refine findByKey_upsertOne_other ?_
    rw [reconcile_name]
    exact fun he => h c (by simp) he.symm


theorem findByKey_upsertList_last (now : Nat) (rates : RateMapping) (m : Nat → ℚ) :
    ∀ (cs : List RawCountry) (i : Nat) (rows : List CountryRow) (idx : Nat) (c : RawCountry),
      cs[idx]? = some c →
      (∀ c' ∈ cs.drop (idx + 1), nameKey c'.name ≠ nameKey c.name) →
      ∃ nm, nameKey nm = nameKey c.name ∧
        findByKey (upsertList now rates m i cs rows) (nameKey c.name)
          = some { (reconcile rates (m (i + idx)) c).toRow now with name := nm } ∧
        (∀ old, findByKey rows (nameKey c.name) = some old → nm = old.name) := by
  intro cs
  induction cs with
  | nil => intro i rows idx c hget _; simp at hget
  | cons c0 cs ih =>
    intro i rows idx c hget hlater
    cases idx with
    | zero =>
      have hc : c0 = c := by simpa using hget
      subst hc
      have hlater' : ∀ c' ∈ cs, nameKey c'.name ≠ nameKey c0.name := by
        simpa using hlater
      have hk0 : nameKey (reconcile rates (m i) c0).name = nameKey c0.name := by
        rw [reconcile_name]
      rw [upsertList]
      rw [findByKey_upsertList_other now rates m cs (i + 1) _ _ hlater']
      rcases hold : findByKey rows (nameKey c0.name) with _ | old
      · refine ⟨(reconcile rates (m i) c0).name, hk0, ?_, ?_⟩
        · rw [show nameKey c0.name = nameKey (reconcile rates (m i) c0).name from hk0.symm,
            findByKey_upsertOne_insert (by rw [hk0]; exact hold)]
          rw [Nat.add_zero]
          rfl
        · intro old h'
          exact Option.noConfusion h'
      · have holdk : nameKey old.name = nameKey c0.name := by
          simpa using List.find?_some
            (show List.find? (fun r => nameKey r.name == nameKey c0.name) rows = some old from hold)
        refine ⟨old.name, holdk, ?_, ?_⟩
        · rw [show nameKey c0.name = nameKey (reconcile rates (m i) c0).name from hk0.symm,
            findByKey_upsertOne_update (by rw [hk0]; exact hold)]
          rw [Nat.add_zero]
          rfl
        · intro old' h'
          cases h'
          rfl
    | succ idx0 =>
      have hget' : cs[idx0]? = some c := by simpa using hget
      have hlater' : ∀ c' ∈ cs.drop (idx0 + 1), nameKey c'.name ≠ nameKey c.name := by
        intro c' hc'
        exact hlater c' (by simpa using hc')
      rw [upsertList]
      obtain ⟨nm, h1, h2, h3⟩ := ih (i + 1) (upsertOne now (reconcile rates (m i) c0) rows)
        idx0 c hget' hlater'
      rw [show i + 1 + idx0 = i + (idx0 + 1) from by omega] at h2
      refine ⟨nm, h1, h2, ?_⟩
      intro old hold
      by_cases hkc : nameKey c.name = nameKey (reconcile rates (m i) c0).name
      · have hupd := @findByKey_upsertOne_update now (reconcile rates (m i) c0) rows old
          (by rw [← hkc]; exact hold)
        rw [← hkc] at hupd
        exact (h3 _ hupd).trans rfl
      · have hoth := @findByKey_upsertOne_other now (reconcile rates (m i) c0) rows
          (nameKey c.name) hkc
        exact h3 old (by rw [hoth]; exact hold)

theorem refresh_countries_eq (st : ServerState) (countries : List RawCountry)
    (rates : RateMapping) (m : Nat → ℚ) (now : Nat) (io : Bool) :
    (refresh st (some countries) (some rates) m now io).2.countries
      = upsertList now rates m 0 countries st.countries := by
  rcases h : st.refresh_status with _ | s0 <;> simp [refresh, h]

/-- C10 (amended): a successful refresh never removes any stored row: every
name stored before is still present (as the same `name` string) after; a row
whose case-insensitive name matches no payload entry is untouched; the row
for a payload entry that is the last with its case-insensitive name carries
that entry's reconciled values in every column EXCEPT `name`, which keeps the
casing already stored for a pre-existing row instead of being overwritten
(see the counterexample); and the stored row count never decreases. -/
theorem refresh_preserves_rows (st : ServerState) (countries : List RawCountry)
    (rates : RateMapping) (m : Nat → ℚ) (now : Nat) (io : Bool) :
    (∀ row ∈ st.countries,
      ∃ row' ∈ (refresh st (some countries) (some rates) m now io).2.countries,
        row'.name = row.name) ∧
    (∀ row ∈ st.countries, (∀ c ∈ countries, nameKey c.name ≠ nameKey row.name) →
      row ∈ (refresh st (some countries) (some rates) m now io).2.countries) ∧
    st.countries.length ≤ (refresh st (some countries) (some rates) m now io).2.countries.length ∧
    (∀ idx c, countries[idx]? = some c →
      (∀ c' ∈ countries.drop (idx + 1), nameKey c'.name ≠ nameKey c.name) →
      ∃ nm, nameKey nm = nameKey c.name ∧
        findByKey (refresh st (some countries) (some rates) m now io).2.countries
            (nameKey c.name)
          = some { (reconcile rates (m idx) c).toRow now with name := nm } ∧
        (∀ old, findByKey st.countries (nameKey c.name) = some old → nm = old.name)) := by
  rw [refresh_countries_eq]
  refine ⟨?_, ?_, ?_, ?_⟩
  · intro row h
    exact upsertList_name_preserved now rates m countries 0 st.countries row h
  · intro row h hc
    exact upsertList_not_matching_mem now rates m countries 0 st.countries row h hc
  · exact length_upsertList now rates m countries 0 st.countries
  · intro idx c hget hlater
    have := findByKey_upsertList_last now rates m countries 0 st.countries idx c hget hlater
    simpa using this

/-- Concrete witness for C10 (amended): refreshing the one-row `Nigeria`
store with a payload naming only `Ghana` keeps the Nigeria row untouched,
grows the store, and the Ghana row carries the reconciled Ghana values. -/
theorem refresh_preserves_rows_witness :
    nigeriaRow ∈ (refresh st3 (some [{ name := "Ghana" }]) (some ngnRates)
        (fun _ => 1500) 9 true).2.countries ∧
    st3.countries.length ≤ (refresh st3 (some [{ name := "Ghana" }]) (some ngnRates)
        (fun _ => 1500) 9 true).2.countries.length ∧
    findByKey (refresh st3 (some [{ name := "Ghana" }]) (some ngnRates)
        (fun _ => 1500) 9 true).2.countries (nameKey "Ghana")
      = some { (reconcile ngnRates 1500 { name := "Ghana" }).toRow 9 with name := "Ghana" } := by
  have h := refresh_preserves_rows st3 [{ name := "Ghana" }] ngnRates (fun _ => 1500) 9 true
  refine ⟨h.2.1 nigeriaRow (by decide) (by decide), h.2.2.1, ?_⟩
  rfl

/-- Counterexample to C10 as stated: the store holds `Nigeria` (capital
`Abuja`); the payload carries the same country as `NIGERIA` with capital
`Lagos`.  After the refresh the row's capital is overwritten to `Lagos`, but
its `name` is still the stored `Nigeria` — the payload's name field
`NIGERIA` is nowhere in the store, so not all fields were overwritten. -/
theorem refresh_overwrites_name_counterexample :
    ((refresh st3 (some [{ name := "NIGERIA", capital := some "Lagos" }]) (some [])
        (fun _ => 1500) 9 true).2.countries.map (fun r => r.name)) = ["Nigeria"] ∧
    ((refresh st3 (some [{ name := "NIGERIA", capital := some "Lagos" }]) (some [])
        (fun _ => 1500) 9 true).2.countries.map (fun r => r.capital)) = [some "Lagos"] ∧
    "NIGERIA" ∉ ((refresh st3 (some [{ name := "NIGERIA", capital := some "Lagos" }]) (some [])
        (fun _ => 1500) 9 true).2.countries.map (fun r => r.name)) := by
  refine ⟨by decide, by decide, by decide⟩


theorem rowToResponse_exchange_rate (r : CountryRow) :
    (rowToResponse r).exchange_rate = r.exchange_rate.map (fun n : ℤ => (n : ℚ) / 10 ^ 6) := by
  simp only [rowToResponse]
  exact numField_decimalCell (by omega) r.exchange_rate

theorem rowToResponse_estimated_gdp (r : CountryRow) :
    (rowToResponse r).estimated_gdp = r.estimated_gdp.map (fun n : ℤ => (n : ℚ) / 10 ^ 2) := by
  simp only [rowToResponse]
  exact numField_decimalCell (by omega) r.estimated_gdp

theorem mem_of_mem_applyFilter {p : Option String} {pred : CountryRow → String → Bool}
    {rows : List CountryRow} {r : CountryRow} (h : r ∈ applyFilter p pred rows) :
    r ∈ rows := by
  rcases p with _ | v
  · exact h
  · exact List.mem_of_mem_filter h

theorem mem_of_mem_filterRows {q : ListQuery} {rows : List CountryRow} {r : CountryRow}
    (h : r ∈ filterRows q rows) : r ∈ rows :=
  mem_of_mem_applyFilter (mem_of_mem_applyFilter h)

theorem mem_of_mem_sortRows {s : Option String} {rows : List CountryRow} {r : CountryRow}
    (h : r ∈ sortRows s rows) : r ∈ rows := by
  unfold sortRows at h
  split at h <;> exact (List.perm_insertionSort _ _).mem_iff.1 h

/-- C6: for every stored record, the query responses — the listing and the
point lookup — return the numeric fields exchange_rate and estimated_gdp as
plain numbers (the stored DECIMAL value) whenever the stored value is
non-null, 0 included, and as null exactly when the stored value is null:
each response row corresponds to a stored row whose driver texts were
coerced with `value ? parseFloat(value) : null`. -/
theorem query_numeric_coercion (st : ServerState) (q : ListQuery) (nm : String) :
    (∀ resp ∈ listCountries st q, ∃ row ∈ st.countries,
        resp.exchange_rate = row.exchange_rate.map (fun n : ℤ => (n : ℚ) / 10 ^ 6) ∧
        resp.estimated_gdp = row.estimated_gdp.map (fun n : ℤ => (n : ℚ) / 10 ^ 2)) ∧
    (∀ body, getCountryByName st nm = LookupResult.ok body → ∃ row ∈ st.countries,
        body.exchange_rate = row.exchange_rate.map (fun n : ℤ => (n : ℚ) / 10 ^ 6) ∧
        body.estimated_gdp = row.estimated_gdp.map (fun n : ℤ => (n : ℚ) / 10 ^ 2)) := by
  constructor
  · intro resp hresp
    rw [listCountries] at hresp
    rcases List.mem_map.1 hresp with ⟨row, hrow, he⟩
    refine ⟨row, mem_of_mem_filterRows (mem_of_mem_sortRows hrow), ?_, ?_⟩
    · rw [← he, rowToResponse_exchange_rate]
    · rw [← he, rowToResponse_estimated_gdp]
  · intro body hbody
    rw [getCountryByName] at hbody
    rcases hf : st.countries.find? (fun r => nameKey r.name == nameKey nm) with _ | row
    · rw [hf] at hbody
      exact absurd hbody (by simp)
    · rw [hf] at hbody
      have he : rowToResponse row = body := by
        simpa using hbody
      refine ⟨row, List.mem_of_find?_eq_some hf, ?_, ?_⟩
      · rw [← he, rowToResponse_exchange_rate]
      · rw [← he, rowToResponse_estimated_gdp]

/-- Shared concrete data: a row whose stored DECIMAL values are 0 (not null). -/
def zeroRateRow : CountryRow :=
  { name := "Freedonia", capital := none, region := none, population := 7,
    currency_code := some "FRD", exchange_rate := some 0, estimated_gdp := some 0,
    flag_url := none, last_refreshed_at := 1 }

/-- Shared concrete data: a row whose stored DECIMAL values are NULL. -/
def nullRateRow : CountryRow :=
  { name := "Sylvania", capital := none, region := none, population := 8,
    currency_code := none, exchange_rate := none, estimated_gdp := none,
    flag_url := none, last_refreshed_at := 1 }

/-- Shared concrete state for the numeric-coercion witness. -/
def st6 : ServerState :=
  { countries := [zeroRateRow, nullRateRow],
    refresh_status := some { last_refreshed_at := 1, total_countries := 2 },
    summaryPng := none }

/-- Concrete witness for C6: a stored 0 comes back as the number 0 (not
null), a stored NULL comes back as null, and the point lookup returns the
mapped row. -/
theorem query_numeric_coercion_witness :
    (rowToResponse zeroRateRow).exchange_rate = some 0 ∧
    (rowToResponse zeroRateRow).estimated_gdp = some 0 ∧
    (rowToResponse nullRateRow).exchange_rate = none ∧
    (rowToResponse nullRateRow).estimated_gdp = none ∧
    getCountryByName st6 "freedonia" = LookupResult.ok (rowToResponse zeroRateRow) ∧
    (∃ row ∈ st6.countries,
      (rowToResponse zeroRateRow).exchange_rate
          = row.exchange_rate.map (fun n : ℤ => (n : ℚ) / 10 ^ 6) ∧
      (rowToResponse zeroRateRow).estimated_gdp
          = row.estimated_gdp.map (fun n : ℤ => (n : ℚ) / 10 ^ 2)) := by
  refine ⟨?_, ?_, ?_, ?_, rfl,
    (query_numeric_coercion st6 {} "freedonia").2 (rowToResponse zeroRateRow) rfl⟩
  · rw [rowToResponse_exchange_rate]
    norm_num [zeroRateRow]
  · rw [rowToResponse_estimated_gdp]
    norm_num [zeroRateRow]
  · rw [rowToResponse_exchange_rate]
    simp [nullRateRow]
  · rw [rowToResponse_estimated_gdp]
    simp [nullRateRow]


instance : IsTotal CountryRow (fun a b => gdpKey b ≤ gdpKey a) :=
  ⟨fun a b => le_total (gdpKey b) (gdpKey a)⟩

instance : IsTrans CountryRow (fun a b => gdpKey b ≤ gdpKey a) :=
  ⟨fun _ _ _ h1 h2 => le_trans h2 h1⟩

theorem gdpKey_eq_bot {r : CountryRow} : gdpKey r = ⊥ ↔ r.estimated_gdp = none := by
  rcases h : r.estimated_gdp with _ | n
  · simp [gdpKey, h]
  · simp [gdpKey, h]

theorem gdpKey_of_some {r : CountryRow} {n : ℤ} (h : r.estimated_gdp = some n) :
    gdpKey r = (n : WithBot ℤ) := by
  rw [gdpKey, h]

/-- C8: listing with sort = gdp_desc returns a sequence in which, for any two
positions i < j, a non-null estimated_gdp at position j is at most a non-null
one at position i — hence every record's estimatedGdp is ≥ the next non-null
record's — and once a record has null estimatedGdp, every later record does
too: the consistent placement of nulls is last, identical on every call over
unchanged data because the listing is a pure function of the stored rows. -/
theorem listCountries_gdp_desc_sorted (st : ServerState) (q : ListQuery)
    (hq : q.sort = some "gdp_desc") (i j : Nat) (hij : i < j)
    (ri rj : CountryResponse)
    (hi : (listCountries st q)[i]? = some ri)
    (hj : (listCountries st q)[j]? = some rj) :
    (∀ a b, ri.estimated_gdp = some a → rj.estimated_gdp = some b → b ≤ a) ∧
    (ri.estimated_gdp = none → rj.estimated_gdp = none) := by
  have hlist : listCountries st q
      = (List.insertionSort (fun a b => gdpKey b ≤ gdpKey a)
          (filterRows q st.countries)).map rowToResponse := by
    rw [listCountries, hq]
    rfl
  rw [hlist, List.getElem?_map] at hi hj
  rcases hri : (List.insertionSort (fun a b => gdpKey b ≤ gdpKey a)
      (filterRows q st.countries))[i]? with _ | rowi
  · rw [hri] at hi
    exact absurd hi (by simp)
  rcases hrj : (List.insertionSort (fun a b => gdpKey b ≤ gdpKey a)
      (filterRows q st.countries))[j]? with _ | rowj
  · rw [hrj] at hj
    exact absurd hj (by simp)
  rw [hri] at hi
  rw [hrj] at hj
  have hi' : rowToResponse rowi = ri := by simpa using hi
  have hj' : rowToResponse rowj = rj := by simpa using hj
  have hsorted : List.Sorted (fun a b => gdpKey b ≤ gdpKey a)
      (List.insertionSort (fun a b => gdpKey b ≤ gdpKey a) (filterRows q st.countries)) :=
    List.sorted_insertionSort _ _
  have hilen := (List.getElem?_eq_some.1 hri).1
  have hjlen := (List.getElem?_eq_some.1 hrj).1
  have hrel : gdpKey rowj ≤ gdpKey rowi := by
    have hpw := List.pairwise_iff_getElem.1 hsorted i j hilen hjlen hij
    rwa [(List.getElem?_eq_some.1 hri).2, (List.getElem?_eq_some.1 hrj).2] at hpw
  constructor
  · intro a b ha hb
    rw [← hi', rowToResponse_estimated_gdp] at ha
    rw [← hj', rowToResponse_estimated_gdp] at hb
    rcases Option.map_eq_some'.1 ha with ⟨na, hna, hea⟩
    rcases Option.map_eq_some'.1 hb with ⟨nb, hnb, heb⟩
    rw [gdpKey_of_some hna, gdpKey_of_some hnb] at hrel
    have hint : nb ≤ na := by exact_mod_cast hrel
    rw [← hea, ← heb]
    gcongr
  · intro ha
    rw [← hi', rowToResponse_estimated_gdp] at ha
    have hnone : rowi.estimated_gdp = none := by
      rcases h : rowi.estimated_gdp with _ | n
      · rfl
      · rw [h] at ha
        simp at ha
    have hbot : gdpKey rowi = ⊥ := gdpKey_eq_bot.2 hnone
    rw [hbot, le_bot_iff] at hrel
    have : rowj.estimated_gdp = none := gdpKey_eq_bot.1 hrel
    rw [← hj', rowToResponse_estimated_gdp, this]
    rfl

/-- Shared concrete data for the sorting witness: estimated_gdp 500.00. -/
def gdpRowA : CountryRow :=
  { name := "A", capital := none, region := none, population := 1,
    currency_code := none, exchange_rate := none, estimated_gdp := some 50000,
    flag_url := none, last_refreshed_at := 1 }

/-- Shared concrete data for the sorting witness: estimated_gdp NULL. -/
def gdpRowB : CountryRow :=
  { name := "B", capital := none, region := none, population := 2,
    currency_code := none, exchange_rate := none, estimated_gdp := none,
    flag_url := none, last_refreshed_at := 1 }

/-- Shared concrete data for the sorting witness: estimated_gdp 700.00. -/
def gdpRowC : CountryRow :=
  { name := "C", capital := none, region := none, population := 3,
    currency_code := none, exchange_rate := none, estimated_gdp := some 70000,
    flag_url := none, last_refreshed_at := 1 }

/-- Shared concrete state for the sorting witness, stored unsorted. -/
def st8 : ServerState :=
  { countries := [gdpRowA, gdpRowB, gdpRowC],
    refresh_status := some { last_refreshed_at := 1, total_countries := 3 },
    summaryPng := none }

/-- The gdp_desc listing query. -/
def q8 : ListQuery := { sort := some "gdp_desc" }

/-- Concrete witness for C8: sorting `[500, null, 700]` by gdp_desc returns
`[700, 500, null]` — descending with the null last — and the pairwise bound
500 ≤ 700 follows from the theorem at positions 0 and 1. -/
theorem listCountries_gdp_desc_sorted_witness :
    (listCountries st8 q8)[0]? = some (rowToResponse gdpRowC) ∧
    (listCountries st8 q8)[1]? = some (rowToResponse gdpRowA) ∧
    (listCountries st8 q8)[2]? = some (rowToResponse gdpRowB) ∧
    (rowToResponse gdpRowC).estimated_gdp = some 700 ∧
    (rowToResponse gdpRowA).estimated_gdp = some 500 ∧
    (rowToResponse gdpRowB).estimated_gdp = none ∧
    (500 : ℚ) ≤ 700 := by
  have h := listCountries_gdp_desc_sorted st8 q8 rfl 0 1 (by omega)
    (rowToResponse gdpRowC) (rowToResponse gdpRowA) rfl rfl
  have hC : (rowToResponse gdpRowC).estimated_gdp = some 700 := by
    rw [rowToResponse_estimated_gdp]
    norm_num [gdpRowC]
  have hA : (rowToResponse gdpRowA).estimated_gdp = some 500 := by
    rw [rowToResponse_estimated_gdp]
    norm_num [gdpRowA]
  have hB : (rowToResponse gdpRowB).estimated_gdp = none := by
    rw [rowToResponse_estimated_gdp]
    simp [gdpRowB]
  exact ⟨rfl, rfl, rfl, hC, hA, hB, h.1 700 500 hC hA⟩

/-- C9 (code bug): the route /countries/:name (server.js line 348) is
registered before /countries/image (line 420), so a GET for /countries/image
is dispatched to the :name handler with name = "image".  With a generated
artifact present and no country named "image" stored, the server answers 404
'Country not found' instead of the artifact that the dead /countries/image
handler would have served. -/
theorem image_route_shadowed :
    st3.summaryPng = some 2 ∧
    getImage st3 = GetResponse.image 2 ∧
    dispatchGet st3 {} ["countries", "image"] = GetResponse.notFound "Country not found" ∧
    dispatchGet st3 {} ["countries", "image"] ≠ getImage st3 := by
  refine ⟨rfl, rfl, rfl, ?_⟩
  intro h
  exact GetResponse.noConfusion (h.symm.trans rfl)

end CountryApi
